import Mathlib

/-!
Verification of the data-enrichment pipeline of `bin/prep.js`
(neural-networks-cli).

The JavaScript source is shallowly embedded: JS numbers are modelled as an
inductive over exact rationals plus the three non-finite values (Infinity,
-Infinity, NaN); JS objects (the per-day records) are ordered association
lists; in-place mutation of rows by `Array.prototype.map` callbacks is
modelled functionally, which is observationally equivalent here because the
transforms only read original CSV columns and only write derived columns.
Negative zero is not modelled (the program never distinguishes it), and
floating-point rounding error is abstracted away: arithmetic is exact on
rationals, which matches the program's behaviour on the small decimal inputs
the claims are about.
-/

/-- A JavaScript number: a finite value (modelled exactly as a rational),
positive or negative infinity, or NaN. -/
inductive JSNum where
  | fin (q : ℚ)
  | inf
  | negInf
  | nan
deriving DecidableEq

/-- JS addition (IEEE semantics on the modelled values). -/
def JSNum.add : JSNum → JSNum → JSNum
  | .nan, _ => .nan
  | _, .nan => .nan
  | .fin a, .fin b => .fin (a + b)
  | .inf, .negInf => .nan
  | .negInf, .inf => .nan
  | .inf, _ => .inf
  | _, .inf => .inf
  | .negInf, _ => .negInf
  | _, .negInf => .negInf

/-- JS unary minus. -/
def JSNum.neg : JSNum → JSNum
  | .fin a => .fin (-a)
  | .inf => .negInf
  | .negInf => .inf
  | .nan => .nan

/-- JS subtraction: a - b is a + (-b) in IEEE arithmetic. -/
def JSNum.sub (a b : JSNum) : JSNum := a.add b.neg

/-- JS multiplication. -/
def JSNum.mul : JSNum → JSNum → JSNum
  | .nan, _ => .nan
  | _, .nan => .nan
  | .fin a, .fin b => .fin (a * b)
  | .inf, .fin b => if b = 0 then .nan else if 0 < b then .inf else .negInf
  | .fin a, .inf => if a = 0 then .nan else if 0 < a then .inf else .negInf
  | .negInf, .fin b => if b = 0 then .nan else if 0 < b then .negInf else .inf
  | .fin a, .negInf => if a = 0 then .nan else if 0 < a then .negInf else .inf
  | .inf, .inf => .inf
  | .inf, .negInf => .negInf
  | .negInf, .inf => .negInf
  | .negInf, .negInf => .inf

/-- JS division.  Division of a nonzero finite value by (positive) zero gives
a signed infinity, 0/0 gives NaN.  (ℚ has a single zero, which behaves as
JS +0; the program never produces -0 as a divisor.) -/
def JSNum.div : JSNum → JSNum → JSNum
  | .nan, _ => .nan
  | _, .nan => .nan
  | .fin a, .fin b =>
      if b = 0 then (if a = 0 then .nan else if 0 < a then .inf else .negInf)
      else .fin (a / b)
  | .inf, .fin b => if 0 ≤ b then .inf else .negInf
  | .negInf, .fin b => if 0 ≤ b then .negInf else .inf
  | .fin _, .inf => .fin 0
  | .fin _, .negInf => .fin 0
  | .inf, .inf => .nan
  | .inf, .negInf => .nan
  | .negInf, .inf => .nan
  | .negInf, .negInf => .nan

/-- A JS value as stored in a record cell: a string, a number, or undefined
(reading an absent object property). -/
inductive JSVal where
  | str (s : String)
  | num (n : JSNum)
  | undef
deriving DecidableEq

/-- Whether a JS value is a string. -/
def JSVal.isStr : JSVal → Bool
  | .str _ => true
  | _ => false

/-- Numeric value of a digit list (most significant first). -/
def digitsVal (cs : List Char) : ℕ :=
  cs.foldl (fun a c => a * 10 + (c.toNat - 48)) 0

/-- The rational denoted by an integer-part digit list and a fractional-part
digit list. -/
def decOfDigits (intPart fracPart : List Char) : ℚ :=
  (digitsVal intPart : ℚ) + (digitsVal fracPart : ℚ) / (10 : ℚ) ^ fracPart.length

/-- Parse the longest unsigned decimal-numeral prefix (digits, with an
optional point and fractional digits); returns the value and the rest, or
none when no digits are present. -/
def parseUnsignedDec (cs : List Char) : Option (ℚ × List Char) :=
  let intPart := cs.takeWhile Char.isDigit
  let rest := cs.dropWhile Char.isDigit
  match rest with
  | '.' :: rest2 =>
      let fracPart := rest2.takeWhile Char.isDigit
      let rest3 := rest2.dropWhile Char.isDigit
      if intPart.isEmpty && fracPart.isEmpty then none
      else some (decOfDigits intPart fracPart, rest3)
  | _ => if intPart.isEmpty then none else some ((digitsVal intPart : ℚ), rest)

/-- The whitespace characters relevant to the modelled inputs. -/
def isJsWhitespace (c : Char) : Bool :=
  c = ' ' || c = '\t' || c = '\n' || c = '\r'

/-- Drop leading and trailing whitespace from a character list. -/
def trimJs (cs : List Char) : List Char :=
  ((cs.dropWhile isJsWhitespace).reverse.dropWhile isJsWhitespace).reverse

/-- Models the JS builtin `Number.parseFloat` on the decimal strings this
program consumes: skip leading whitespace, read an optional sign and the
longest decimal-numeral prefix; NaN when no digits are found.  (Exponent,
hexadecimal and Infinity forms never occur in this program's cell values and
are outside the modelled input space.) -/
def jsParseFloat (s : String) : JSNum :=
  let cs := s.data.dropWhile isJsWhitespace
  match cs with
  | '-' :: rest =>
      match parseUnsignedDec rest with
      | some (q, _) => .fin (-q)
      | none => .nan
  | '+' :: rest =>
      match parseUnsignedDec rest with
      | some (q, _) => .fin q
      | none => .nan
  | cs2 =>
      match parseUnsignedDec cs2 with
      | some (q, _) => .fin q
      | none => .nan

/-- Models the JS builtin `Number(.)` coercion on strings: the whole trimmed
string must be a (signed) decimal numeral, the empty or all-whitespace string
coerces to 0, anything else to NaN. -/
def jsNumberOfString (s : String) : JSNum :=
  match trimJs s.data with
  | [] => .fin 0
  | '-' :: rest =>
      match parseUnsignedDec rest with
      | some (q, []) => .fin (-q)
      | _ => .nan
  | '+' :: rest =>
      match parseUnsignedDec rest with
      | some (q, []) => .fin q
      | _ => .nan
  | cs =>
      match parseUnsignedDec cs with
      | some (q, []) => .fin q
      | _ => .nan

/-- Models the JS builtin `Number(v)` on a cell value: numbers pass through,
strings are coerced, `Number(undefined)` is NaN. -/
def jsToNumber : JSVal → JSNum
  | .str s => jsNumberOfString s
  | .num n => n
  | .undef => .nan

/-- Models `s.replace(/,/g, '')`: remove every comma. -/
def stripCommas (s : String) : String :=
  ⟨s.data.filter (fun c => c ≠ ',')⟩

/-- Models `Number.parseFloat(v.replace(/,/g, ''))` as the percentage-change
transforms apply it to a cell value.  The source only ever applies it to
string cells (original CSV columns); on a non-string cell `.replace` would
throw a TypeError and kill the run, so such cells are outside the modelled
input space: the theorems about these transforms either hypothesise string
cells (or the concrete sentinel/parse facts that presuppose them), and the
pipeline totality statement is restricted to inputs whose consumed cells are
all strings. -/
def parseCell : JSVal → JSNum
  | .str s => jsParseFloat (stripCommas s)
  | .num _ => .nan
  | .undef => .nan

/-- A JS object (one per-day record) as an ordered association list of own
properties. -/
abbrev Record := List (String × JSVal)

/-- Reading `row[k]`: the first binding of k, or JS undefined when absent. -/
def getKey : Record → String → JSVal
  | [], _ => .undef
  | p :: rest, k => if p.1 = k then p.2 else getKey rest k

/-- Models `Object.assign(r, single-binding object)`: overwrite the existing
binding in place, or append a new one. -/
def setKey : Record → String → JSVal → Record
  | [], k, v => [(k, v)]
  | p :: rest, k, v => if p.1 = k then (k, v) :: rest else p :: setKey rest k v

/-- Models `Object.assign(r, obj)` where obj is given as its ordered binding
list. -/
def assignList (r : Record) (kvs : List (String × JSVal)) : Record :=
  kvs.foldl (fun acc kv => setKey acc kv.1 kv.2) r

/-- The cell of record number i of a record sequence (undefined past the
end), the observation the theorems below are phrased with. -/
def getCell (data : List Record) (i : ℕ) (k : String) : JSVal :=
  getKey (data.getD i []) k

/- Constants of prep.js. -/

def CURRENCY_DECIMAL_PLACES : ℕ := 2

def DATE_CELL : String := "Date"

def NOT_APPLICABLE : String := "-"

def VALUE_CELLS : List String := ["Open", "High", "Low", "Close"]

/-- The N/A sentinel as a cell value. -/
def naVal : JSVal := .str NOT_APPLICABLE

/-- ES `Number.prototype.toFixed(2)`: for a finite value, the closest
hundredth (ties to the one farther from zero, per the spec's choice of the
larger n on the absolute value), printed with exactly two decimals; NaN and
the infinities print as their names. -/
def toFixed2 : JSNum → String
  | .nan => "NaN"
  | .inf => "Infinity"
  | .negInf => "-Infinity"
  | .fin q =>
      let n : ℤ := ⌊|q| * 100 + 1 / 2⌋
      let ip := n / 100
      let fp := (n % 100).toNat
      (if q < 0 then "-" else "") ++ toString ip ++ "."
        ++ (if fp < 10 then "0" else "") ++ toString fp

/-- prep.js `numberToCurrencyValue`: `Number(num).toFixed(2)` (the argument
is already a number, so the `Number` coercion is the identity). -/
def numberToCurrencyValue (num : JSNum) : String := toFixed2 num

/-- The derived column name `${cell} Moving Average - ${multiplier} ${epoch}`
with epoch = 'days'. -/
def movingAverageCellName (cell : String) (multiplier : ℕ) : String :=
  cell ++ " Moving Average - " ++ toString multiplier ++ " days"

/-- prep.js `movingAverage(multiplier)(data)`.  For each row index i and each
price field: below `multiplier - 1` the sentinel; otherwise the sum of
`Number(row[cell])` over `data.slice(i + 1 - multiplier, i + 1)` divided by
the multiplier and formatted with `numberToCurrencyValue`.  The multiplier is
a window length (the spec's positive-integer domain), modelled as ℕ. -/
def movingAverage (multiplier : ℕ) (data : List Record) : List Record :=
  data.mapIdx (fun i row =>
    assignList row (VALUE_CELLS.map (fun cell =>
      if i < multiplier - 1 then
        (movingAverageCellName cell multiplier, naVal)
      else
        let window := (data.drop (i + 1 - multiplier)).take multiplier
        let sum : JSNum := window.foldl
          (fun cellAccum r => cellAccum.add (jsToNumber (getKey r cell))) (.fin 0)
        (movingAverageCellName cell multiplier,
          .str (numberToCurrencyValue (sum.div (.fin multiplier)))))))

def DEFAULT_MOVING_AVERAGES : List ℕ := [5, 50, 100, 200]

/-- prep.js `percentagesChangeInVolume`.  The guard is
`(i - 1 >= 0) && row[volumeKey] !== NOT_APPLICABLE && data[i-1][volumeKey] !== NOT_APPLICABLE`;
in the guarded branch both volumes are comma-stripped and parsed and the
stored value is the number `(newVolume - oldVolume) / oldVolume * 100`,
otherwise the sentinel string. -/
def percentagesChangeInVolume (data : List Record) : List Record :=
  data.mapIdx (fun i row =>
    let change : JSVal :=
      if 1 ≤ i ∧ getKey row "Volume" ≠ naVal
          ∧ getKey (data.getD (i - 1) []) "Volume" ≠ naVal then
        let oldVolume := parseCell (getKey (data.getD (i - 1) []) "Volume")
        let newVolume := parseCell (getKey row "Volume")
        .num (((newVolume.sub oldVolume).div oldVolume).mul (.fin 100))
      else naVal
    assignList row [("Daily Change in Volume", change)])

def priceKeys : List String := ["Open", "High", "Low", "Close"]

/-- The derived column name `${key} - Daily Percentage Change`. -/
def priceChangeCellName (key : String) : String :=
  key ++ " - Daily Percentage Change"

/-- prep.js `percentagesChangeInPrices`.  Identical to the volume transform
for each of the four price keys, except the index guard is `i - 1 > 0`
(so row indices 0 and 1 both take the sentinel branch). -/
def percentagesChangeInPrices (data : List Record) : List Record :=
  data.mapIdx (fun i row =>
    assignList row (priceKeys.map (fun key =>
      if 2 ≤ i ∧ getKey row key ≠ naVal
          ∧ getKey (data.getD (i - 1) []) key ≠ naVal then
        let oldValue := parseCell (getKey (data.getD (i - 1) []) key)
        let newValue := parseCell (getKey row key)
        (priceChangeCellName key,
          .num (((newValue.sub oldValue).div oldValue).mul (.fin 100)))
      else
        (priceChangeCellName key, naVal))))

/-- Models `s.trim()` on the modelled whitespace. -/
def jsTrim (s : String) : String := ⟨trimJs s.data⟩

/-- Split on commas (keeping empty fields), as `s.split(',')` does. -/
def splitOnCommaAux : List Char → List Char → List String
  | [], acc => [⟨acc.reverse⟩]
  | c :: rest, acc =>
      if c = ',' then ⟨acc.reverse⟩ :: splitOnCommaAux rest []
      else splitOnCommaAux rest (c :: acc)

/-- Models `s.split(',')`. -/
def jsSplitComma (s : String) : List String := splitOnCommaAux s.data []

/-- The final `.map` of `formatInputtedMovingAverages`: convert each token
with `Number`, except that a token failing `isNaN` (coercing to NaN) aborts
the process at once — the error case here. -/
def mapOrExit : List String → Except Unit (List JSNum)
  | [] => Except.ok []
  | a :: rest =>
      if jsNumberOfString a = JSNum.nan then Except.error ()
      else
        match mapOrExit rest with
        | Except.ok l => Except.ok (jsNumberOfString a :: l)
        | Except.error e => Except.error e

/-- prep.js `formatInputtedMovingAverages`.  `process.exit(1)` on a token
failing `isNaN` is the error case; the `null` return for a missing flag (or
the falsy empty string) is `.ok none`.  `isNaN(a)` coerces with `Number(a)`
and tests for NaN. -/
def formatInputtedMovingAverages (avgsString : Option String) :
    Except Unit (Option (List JSNum)) :=
  match avgsString with
  | none => Except.ok none
  | some s =>
      if s = "" then Except.ok none
      else
        match mapOrExit ((jsSplitComma s).map jsTrim) with
        | Except.ok l => Except.ok (some l)
        | Except.error e => Except.error e

/-- The JS computed key `${headers[i]}`: an out-of-range index reads
undefined and the object key becomes the string "undefined". -/
def headerName (headers : List String) (i : ℕ) : String :=
  headers.getD i "undefined"

/-- prep.js `rowsToObjects`: one record per raw row, built by an indexed
reduce of `Object.assign(accum, lone binding headers[i] to elem)` from the
empty object. -/
def rowsToObjects (rows : List (List String)) (headers : List String) :
    List Record :=
  rows.map (fun row =>
    row.enum.foldl (fun accum p => setKey accum (headerName headers p.1) (.str p.2)) [])

/-- prep.js `sortDataByDate`: `data.sort` with comparator
`new Date(a[dateKey]) - new Date(b[dateKey])`.  `Array.prototype.sort` is
specified stable and is embedded as a stable merge sort.  `Date` parsing is
an external library facility, abstracted as a function from the cell value
to an integer timestamp (unparseable dates yield NaN in JS and are outside
the modelled input space, per the spec's open question on date-parse
failure). -/
def sortDataByDate (parseDate : JSVal → ℤ) (dateKey : String)
    (data : List Record) : List Record :=
  data.mergeSort (fun a b =>
    decide (parseDate (getKey a dateKey) ≤ parseDate (getKey b dateKey)))

/-- prep.js `prepareData`, with the configured window lengths passed
explicitly (the source reads them from process.argv inside
`movingAverages()`; configuration access is the out-of-scope CLI surface).
`pipe` applies the stages left to right: volume change, price change, then
one moving-average stage per configured window length in list order. -/
def prepareData (movingAverageLengths : List ℕ) (data : List Record) :
    List Record :=
  (movingAverageLengths.map movingAverage).foldl (fun d f => f d)
    (percentagesChangeInPrices (percentagesChangeInVolume data))

/-- The data path of prep.js `main`: sort by the Date column, then enrich. -/
def pipelineRun (parseDate : JSVal → ℤ) (movingAverageLengths : List ℕ)
    (data : List Record) : List Record :=
  prepareData movingAverageLengths (sortDataByDate parseDate DATE_CELL data)

/-- The value shapes a derived percentage-change cell can take: the sentinel
string or a JS number (possibly non-finite). -/
def NumOrSentinel (v : JSVal) : Prop :=
  v = naVal ∨ ∃ n : JSNum, v = JSVal.num n

/-- The value shapes a derived moving-average cell can take: the sentinel
string or the toFixed(2) rendering of some JS number. -/
def CurrencyStringOrSentinel (v : JSVal) : Prop :=
  v = naVal ∨ ∃ n : JSNum, v = JSVal.str (numberToCurrencyValue n)

/-- A degenerate timestamp function (every record equal), for concrete
instances of the sort. -/
def constTimestamp : JSVal → ℤ := fun _ => 0

/-- A sample timestamp function for concrete instances: the length of the
date string. -/
def timestampByLength : JSVal → ℤ
  | JSVal.str s => (s.data.length : ℤ)
  | _ => 0

/-- A full-column three-day sample (every cell the program consumes is a
string, so a real run completes): closing and other prices 10, 20, 30 and a
sentinel volume column. -/
def sampleRows3 : List Record :=
  [[("Date", JSVal.str "2020-01-01"), ("Volume", JSVal.str "-"),
    ("Open", JSVal.str "10"), ("High", JSVal.str "10"),
    ("Low", JSVal.str "10"), ("Close", JSVal.str "10")],
   [("Date", JSVal.str "2020-01-02"), ("Volume", JSVal.str "-"),
    ("Open", JSVal.str "20"), ("High", JSVal.str "20"),
    ("Low", JSVal.str "20"), ("Close", JSVal.str "20")],
   [("Date", JSVal.str "2020-01-03"), ("Volume", JSVal.str "-"),
    ("Open", JSVal.str "30"), ("High", JSVal.str "30"),
    ("Low", JSVal.str "30"), ("Close", JSVal.str "30")]]

/-- A full-column two-day sample whose first day is all sentinels: a real
run completes (no non-string cell is ever consumed) and every 2-day window
contains a sentinel. -/
def sampleRowsNaN : List Record :=
  [[("Date", JSVal.str "2020-01-01"), ("Volume", JSVal.str "-"),
    ("Open", JSVal.str "-"), ("High", JSVal.str "-"),
    ("Low", JSVal.str "-"), ("Close", JSVal.str "-")],
   [("Date", JSVal.str "2020-01-02"), ("Volume", JSVal.str "200"),
    ("Open", JSVal.str "10"), ("High", JSVal.str "10"),
    ("Low", JSVal.str "10"), ("Close", JSVal.str "10")]]

/-- A single fully numeric full-column day. -/
def sampleRowTotal : List Record :=
  [[("Date", JSVal.str "2020-01-01"), ("Volume", JSVal.str "100"),
    ("Open", JSVal.str "10"), ("High", JSVal.str "10"),
    ("Low", JSVal.str "10"), ("Close", JSVal.str "10")]]

instance {ε α : Type} [DecidableEq ε] [DecidableEq α] : DecidableEq (Except ε α) :=
  fun x y =>
    match x, y with
    | .ok a, .ok b =>
        if h : a = b then .isTrue (by rw [h]) else .isFalse (by simp [h])
    | .error a, .error b =>
        if h : a = b then .isTrue (by rw [h]) else .isFalse (by simp [h])
    | .ok _, .error _ => .isFalse (by simp)
    | .error _, .ok _ => .isFalse (by simp)

/- ### Record lemmas -/

theorem getKey_setKey (r : Record) (k k' : String) (v : JSVal) :
    getKey (setKey r k v) k' = if k' = k then v else getKey r k' := by
  induction r with
  | nil =>
      simp only [setKey, getKey]
      by_cases h : k = k'
      · simp [h]
      · simp [h, (show ¬ (k' = k) from fun hh => h hh.symm)]
  | cons p rest ih =>
      by_cases hpk : p.1 = k
      · simp only [setKey, if_pos hpk, getKey]
        by_cases h : k = k'
        · subst h; simp
        · simp [h, (show ¬ (k' = k) from fun hh => h hh.symm),
            (show ¬ (p.1 = k') from fun hh => h (hpk.symm.trans hh))]
      · simp only [setKey, if_neg hpk, getKey]
        rw [ih]
        by_cases h2 : p.1 = k' <;> by_cases h : k' = k <;> simp_all

theorem assignList_cons (r : Record) (kv : String × JSVal)
    (kvs : List (String × JSVal)) :
    assignList r (kv :: kvs) = assignList (setKey r kv.1 kv.2) kvs := rfl

theorem getKey_assignList_of_ne (kvs : List (String × JSVal)) (r : Record)
    (k : String) (h : ∀ kv ∈ kvs, k ≠ kv.1) :
    getKey (assignList r kvs) k = getKey r k := by
  induction kvs generalizing r with
  | nil => rfl
  | cons kv rest ih =>
      rw [assignList_cons, ih _ (fun kv2 h2 => h kv2 (List.mem_cons_of_mem _ h2)),
        getKey_setKey]
      simp [h kv (List.mem_cons_self _ _)]

theorem getKey_assignList_mem (kvs : List (String × JSVal)) (r : Record)
    (k : String) (v : JSVal) (hnd : (kvs.map Prod.fst).Nodup)
    (hmem : (k, v) ∈ kvs) :
    getKey (assignList r kvs) k = v := by
  induction kvs generalizing r with
  | nil => cases hmem
  | cons kv rest ih =>
      simp only [List.map_cons, List.nodup_cons] at hnd
      rcases List.mem_cons.mp hmem with heq | hm
      · have hk : kv.1 = k := by rw [← heq]
        have hv : kv.2 = v := by rw [← heq]
        have hne : ∀ kv2 ∈ rest, k ≠ kv2.1 := by
          intro kv2 h2 he
          apply hnd.1
          rw [hk, he]
          exact List.mem_map_of_mem Prod.fst h2
        rw [assignList_cons, getKey_assignList_of_ne rest _ k hne, hk, getKey_setKey]
        simp [hv]
      · exact ih _ hnd.2 hm

/- ### Indexing through mapIdx -/

theorem getD_mapIdx_record (data : List Record) (f : ℕ → Record → Record)
    (i : ℕ) (h : i < data.length) :
    (data.mapIdx f).getD i [] = f i (data.getD i []) := by
  have h2 : i < (data.mapIdx f).length := by simpa using h
  have hg := List.get_mapIdx data f i h
  rw [List.getD_eq_getElem?_getD, List.getD_eq_getElem?_getD,
    List.getElem?_eq_getElem h2, List.getElem?_eq_getElem h]
  simp only [List.get_eq_getElem] at hg
  exact hg

/- ### JSNum arithmetic lemmas -/

theorem JSNum.add_fin (a b : ℚ) : (JSNum.fin a).add (.fin b) = .fin (a + b) := rfl

theorem JSNum.add_nan (a : JSNum) : a.add .nan = .nan := by cases a <;> rfl

theorem JSNum.nan_add (a : JSNum) : JSNum.nan.add a = .nan := by cases a <;> rfl

theorem JSNum.sub_fin (a b : ℚ) : (JSNum.fin a).sub (.fin b) = .fin (a - b) := by
  simp [JSNum.sub, JSNum.neg, JSNum.add, sub_eq_add_neg]

theorem JSNum.div_fin (a b : ℚ) (hb : b ≠ 0) :
    (JSNum.fin a).div (.fin b) = .fin (a / b) := by
  simp [JSNum.div, hb]

theorem JSNum.mul_fin (a b : ℚ) : (JSNum.fin a).mul (.fin b) = .fin (a * b) := rfl

theorem JSNum.fin_div_zero (a : ℚ) :
    (JSNum.fin a).div (.fin 0) =
      if a = 0 then .nan else if 0 < a then .inf else .negInf := by
  simp [JSNum.div]

theorem JSNum.inf_mul_hundred : JSNum.inf.mul (.fin 100) = .inf := by
  norm_num [JSNum.mul]

theorem JSNum.negInf_mul_hundred : JSNum.negInf.mul (.fin 100) = .negInf := by
  norm_num [JSNum.mul]

theorem JSNum.nan_mul (a : JSNum) : JSNum.nan.mul a = .nan := by cases a <;> rfl

theorem JSNum.nan_div (a : JSNum) : JSNum.nan.div a = .nan := by cases a <;> rfl

/- ### Summation folds of JS numbers -/

theorem foldl_add_from_nan {α : Type} (f : α → JSNum) (l : List α) :
    l.foldl (fun a y => JSNum.add a (f y)) JSNum.nan = .nan := by
  induction l with
  | nil => rfl
  | cons hd tl ih =>
      simp only [List.foldl_cons, JSNum.nan_add]
      exact ih

theorem foldl_add_nan_of_mem {α : Type} (f : α → JSNum) (l : List α) (x : α)
    (hx : x ∈ l) (hfx : f x = .nan) :
    ∀ acc : JSNum, l.foldl (fun a y => JSNum.add a (f y)) acc = .nan := by
  induction l with
  | nil => cases hx
  | cons hd tl ih =>
      intro acc
      rcases List.mem_cons.mp hx with heq | hm
      · simp only [List.foldl_cons, heq ▸ hfx, JSNum.add_nan]
        exact foldl_add_from_nan f tl
      · simp only [List.foldl_cons]
        exact ih hm _

theorem foldl_add_fins {α : Type} (f : α → JSNum) :
    ∀ (l : List α) (qs : List ℚ), l.map f = qs.map JSNum.fin →
      ∀ acc : ℚ, l.foldl (fun a y => JSNum.add a (f y)) (.fin acc)
        = .fin (acc + qs.sum) := by
  intro l
  induction l with
  | nil =>
      intro qs h acc
      cases qs with
      | nil => simp
      | cons q qs2 => simp at h
  | cons hd tl ih =>
      intro qs h acc
      cases qs with
      | nil => simp at h
      | cons q qs2 =>
          simp only [List.map_cons, List.cons.injEq] at h
          simp only [List.foldl_cons, h.1, JSNum.add_fin]
          rw [ih qs2 h.2 (acc + q), List.sum_cons, add_assoc]

/- ### Derived column names are distinct -/

theorem movingAverageCellName_data (cell : String) (W : ℕ) :
    (movingAverageCellName cell W).data
      = cell.data ++ (" Moving Average - ".data ++ ((toString W).data ++ " days".data)) := by
  simp [movingAverageCellName]

theorem getLast?_movingAverageCellName (cell : String) (W : ℕ) :
    (movingAverageCellName cell W).data.getLast? = some 's' := by
  rw [movingAverageCellName_data, List.getLast?_append, List.getLast?_append,
    List.getLast?_append]
  simp only [(show (" days" : String).data.getLast? = some 's' from rfl),
    Option.or_some]

theorem ne_maName_of_getLast (s : String) (hs : s.data.getLast? ≠ some 's')
    (cell : String) (W : ℕ) : s ≠ movingAverageCellName cell W := by
  intro he
  exact hs (by rw [he, getLast?_movingAverageCellName])

theorem movingAverageCellName_inj (c1 c2 : String) (W : ℕ)
    (he : movingAverageCellName c1 W = movingAverageCellName c2 W) : c1 = c2 := by
  have hd := congrArg String.data he
  rw [movingAverageCellName_data, movingAverageCellName_data] at hd
  have h2 := List.append_cancel_right hd
  cases c1; cases c2; exact congrArg String.mk h2

theorem priceChangeCellName_data (key : String) :
    (priceChangeCellName key).data = key.data ++ " - Daily Percentage Change".data := by
  simp [priceChangeCellName]

theorem getLast?_priceChangeCellName (key : String) :
    (priceChangeCellName key).data.getLast? = some 'e' := by
  rw [priceChangeCellName_data, List.getLast?_append]
  simp only [(show (" - Daily Percentage Change" : String).data.getLast? = some 'e' from rfl),
    Option.or_some]

theorem priceChangeCellName_inj (c1 c2 : String)
    (he : priceChangeCellName c1 = priceChangeCellName c2) : c1 = c2 := by
  have hd := congrArg String.data he
  rw [priceChangeCellName_data, priceChangeCellName_data] at hd
  have h2 := List.append_cancel_right hd
  cases c1; cases c2; exact congrArg String.mk h2

theorem priceChangeCellName_ne_maName (key cell : String) (W : ℕ) :
    priceChangeCellName key ≠ movingAverageCellName cell W := by
  apply ne_maName_of_getLast
  rw [getLast?_priceChangeCellName]
  decide

theorem dcv_ne_maName (cell : String) (W : ℕ) :
    "Daily Change in Volume" ≠ movingAverageCellName cell W := by
  apply ne_maName_of_getLast
  decide

theorem getCell_pcv (data : List Record) (i : ℕ) (h : i < data.length) :
    getCell (percentagesChangeInVolume data) i "Daily Change in Volume" =
      if 1 ≤ i ∧ getKey (data.getD i []) "Volume" ≠ naVal
          ∧ getKey (data.getD (i - 1) []) "Volume" ≠ naVal then
        JSVal.num ((((parseCell (getKey (data.getD i []) "Volume")).sub
            (parseCell (getKey (data.getD (i - 1) []) "Volume"))).div
            (parseCell (getKey (data.getD (i - 1) []) "Volume"))).mul (.fin 100))
      else naVal := by
  unfold getCell percentagesChangeInVolume
  rw [getD_mapIdx_record _ _ _ h]
  simp only [assignList, List.foldl_cons, List.foldl_nil, getKey_setKey]
  simp

theorem getCell_pcv_other (data : List Record) (i : ℕ) (k : String)
    (h : i < data.length) (hk : k ≠ "Daily Change in Volume") :
    getCell (percentagesChangeInVolume data) i k = getCell data i k := by
  unfold getCell percentagesChangeInVolume
  rw [getD_mapIdx_record _ _ _ h]
  simp only [assignList, List.foldl_cons, List.foldl_nil, getKey_setKey]
  simp [hk]

theorem pcNames_nodup : ([priceChangeCellName "Open", priceChangeCellName "High",
    priceChangeCellName "Low", priceChangeCellName "Close"].Nodup) := by decide

theorem prod_ite (c : Prop) [Decidable c] (n : String) (a b : JSVal) :
    (if c then (n, a) else (n, b)) = (n, if c then a else b) := by
  split <;> rfl

theorem getCell_pcp (data : List Record) (i : ℕ) (h : i < data.length)
    (key : String) (hkey : key ∈ priceKeys) :
    getCell (percentagesChangeInPrices data) i (priceChangeCellName key) =
      if 2 ≤ i ∧ getKey (data.getD i []) key ≠ naVal
          ∧ getKey (data.getD (i - 1) []) key ≠ naVal then
        JSVal.num ((((parseCell (getKey (data.getD i []) key)).sub
            (parseCell (getKey (data.getD (i - 1) []) key))).div
            (parseCell (getKey (data.getD (i - 1) []) key))).mul (.fin 100))
      else naVal := by
  unfold getCell percentagesChangeInPrices
  rw [getD_mapIdx_record _ _ _ h]
  apply getKey_assignList_mem
  · rw [List.map_map]
    have hco : List.map (Prod.fst ∘ (fun key =>
        if 2 ≤ i ∧ getKey (data.getD i []) key ≠ naVal
            ∧ getKey (data.getD (i - 1) []) key ≠ naVal then
          (priceChangeCellName key,
            JSVal.num ((((parseCell (getKey (data.getD i []) key)).sub
              (parseCell (getKey (data.getD (i - 1) []) key))).div
              (parseCell (getKey (data.getD (i - 1) []) key))).mul (.fin 100)))
        else (priceChangeCellName key, naVal))) priceKeys
        = List.map priceChangeCellName priceKeys := by
      apply List.map_congr_left
      intro kk _
      dsimp only [Function.comp]
      split <;> rfl
    rw [hco]
    exact pcNames_nodup
  · apply List.mem_map.mpr
    exact ⟨key, hkey, prod_ite _ _ _ _⟩

theorem getCell_pcp_other (data : List Record) (i : ℕ) (k : String)
    (h : i < data.length)
    (hk : ∀ key ∈ priceKeys, k ≠ priceChangeCellName key) :
    getCell (percentagesChangeInPrices data) i k = getCell data i k := by
  unfold getCell percentagesChangeInPrices
  rw [getD_mapIdx_record _ _ _ h]
  rw [getKey_assignList_of_ne]
  intro kv hkv
  obtain ⟨key, hkey, rfl⟩ := List.mem_map.mp hkv
  exact fun he => hk key hkey (he.trans (by split <;> rfl))

theorem maNames_nodup (W : ℕ) :
    ([movingAverageCellName "Open" W, movingAverageCellName "High" W,
      movingAverageCellName "Low" W, movingAverageCellName "Close" W].Nodup) := by
  have hne : ∀ c1 c2 : String, c1 ≠ c2 →
      movingAverageCellName c1 W ≠ movingAverageCellName c2 W :=
    fun c1 c2 hc he => hc (movingAverageCellName_inj c1 c2 W he)
  simp only [List.nodup_cons, List.mem_cons, List.mem_singleton,
    List.not_mem_nil, List.nodup_nil, and_true, not_or, not_false_iff]
  exact ⟨⟨hne _ _ (by decide), hne _ _ (by decide), hne _ _ (by decide)⟩,
    ⟨hne _ _ (by decide), hne _ _ (by decide)⟩, hne _ _ (by decide)⟩

theorem getCell_movingAverage (W : ℕ) (data : List Record) (i : ℕ)
    (h : i < data.length) (cell : String) (hcell : cell ∈ VALUE_CELLS) :
    getCell (movingAverage W data) i (movingAverageCellName cell W) =
      if i < W - 1 then naVal
      else JSVal.str (numberToCurrencyValue
        ((((data.drop (i + 1 - W)).take W).foldl
            (fun a r => JSNum.add a (jsToNumber (getKey r cell)))
            (.fin 0)).div (.fin W))) := by
  unfold getCell movingAverage
  rw [getD_mapIdx_record _ _ _ h]
  apply getKey_assignList_mem
  · rw [List.map_map]
    have hco : List.map (Prod.fst ∘ (fun cell =>
        if i < W - 1 then (movingAverageCellName cell W, naVal)
        else
          let window := (data.drop (i + 1 - W)).take W
          let sum : JSNum := window.foldl
            (fun cellAccum r => cellAccum.add (jsToNumber (getKey r cell))) (.fin 0)
          (movingAverageCellName cell W,
            JSVal.str (numberToCurrencyValue (sum.div (.fin W)))))) VALUE_CELLS
        = List.map (fun c => movingAverageCellName c W) VALUE_CELLS := by
      apply List.map_congr_left
      intro kk _
      dsimp only [Function.comp]
      split <;> rfl
    rw [hco]
    exact maNames_nodup W
  · apply List.mem_map.mpr
    exact ⟨cell, hcell, by split <;> rfl⟩

theorem getCell_movingAverage_other (W : ℕ) (data : List Record) (i : ℕ)
    (k : String) (h : i < data.length)
    (hk : ∀ cell ∈ VALUE_CELLS, k ≠ movingAverageCellName cell W) :
    getCell (movingAverage W data) i k = getCell data i k := by
  unfold getCell movingAverage
  rw [getD_mapIdx_record _ _ _ h]
  rw [getKey_assignList_of_ne]
  intro kv hkv
  obtain ⟨cell, hcell, rfl⟩ := List.mem_map.mp hkv
  exact fun he => hk cell hcell (he.trans (by split <;> rfl))

theorem length_pcv (data : List Record) :
    (percentagesChangeInVolume data).length = data.length := by
  simp [percentagesChangeInVolume]

theorem length_pcp (data : List Record) :
    (percentagesChangeInPrices data).length = data.length := by
  simp [percentagesChangeInPrices]

theorem length_movingAverage (W : ℕ) (data : List Record) :
    (movingAverage W data).length = data.length := by
  simp [movingAverage]

/-- C1: the price percentage-change transform emits the N/A sentinel for every
price field at row indices 0 and 1 (edge condition i - 1 > 0), and at every
index i ≥ 2 where neither the current nor the previous value is the sentinel
it emits (current - previous) / previous * 100. -/
theorem C1_price_change_edges_and_formula (data : List Record) (key : String)
    (hkey : key ∈ priceKeys) :
    (∀ i, i < data.length → i ≤ 1 →
      getCell (percentagesChangeInPrices data) i (priceChangeCellName key) = naVal) ∧
    (∀ i, 2 ≤ i → i < data.length → ∀ c p : ℚ,
      getKey (data.getD i []) key ≠ naVal →
      getKey (data.getD (i - 1) []) key ≠ naVal →
      parseCell (getKey (data.getD i []) key) = .fin c →
      parseCell (getKey (data.getD (i - 1) []) key) = .fin p → p ≠ 0 →
      getCell (percentagesChangeInPrices data) i (priceChangeCellName key)
        = .num (.fin ((c - p) / p * 100))) := by
  constructor
  · intro i hi hle
    rw [getCell_pcp data i hi key hkey, if_neg]
    rintro ⟨h2, -, -⟩
    omega
  · intro i h2 hi c p hcur hprev hc hp hpz
    rw [getCell_pcp data i hi key hkey, if_pos ⟨h2, hcur, hprev⟩, hc, hp,
      JSNum.sub_fin, JSNum.div_fin _ _ hpz, JSNum.mul_fin]

/-- Witness for C1 on the full-column sample with Close values [10, 20, 30]:
sentinel at indices 0 and 1, (30 - 20) / 20 * 100 = 50 at index 2. -/
theorem C1_witness :
    getCell (percentagesChangeInPrices sampleRows3) 0
      (priceChangeCellName "Close") = naVal ∧
    getCell (percentagesChangeInPrices sampleRows3) 1
      (priceChangeCellName "Close") = naVal ∧
    getCell (percentagesChangeInPrices sampleRows3) 2 (priceChangeCellName "Close")
      = JSVal.num (JSNum.fin 50) := by
  refine ⟨?_, ?_, ?_⟩
  · exact (C1_price_change_edges_and_formula _ "Close" (by decide)).1 0
      (by decide) (by decide)
  · exact (C1_price_change_edges_and_formula _ "Close" (by decide)).1 1
      (by decide) (by decide)
  · have h50 : ((30 : ℚ) - 20) / 20 * 100 = 50 := by norm_num
    exact ((C1_price_change_edges_and_formula _ "Close" (by decide)).2 2
      (by decide) (by decide) 30 20 (by decide) (by decide) (by decide)
      (by decide) (by decide)).trans (by rw [h50])

/-- C6: the volume percentage-change transform emits the sentinel at index 0
and whenever either volume operand is the sentinel, and at every other index
emits (new - old) / old * 100 on the comma-stripped parsed values, so it is
defined as early as index 1. -/
theorem C6_volume_change_edges_and_formula (data : List Record) :
    (∀ i, i < data.length →
      (i = 0 ∨ getKey (data.getD i []) "Volume" = naVal
        ∨ getKey (data.getD (i - 1) []) "Volume" = naVal) →
      getCell (percentagesChangeInVolume data) i "Daily Change in Volume" = naVal) ∧
    (∀ i, 1 ≤ i → i < data.length → ∀ c p : ℚ,
      getKey (data.getD i []) "Volume" ≠ naVal →
      getKey (data.getD (i - 1) []) "Volume" ≠ naVal →
      parseCell (getKey (data.getD i []) "Volume") = .fin c →
      parseCell (getKey (data.getD (i - 1) []) "Volume") = .fin p → p ≠ 0 →
      getCell (percentagesChangeInVolume data) i "Daily Change in Volume"
        = .num (.fin ((c - p) / p * 100))) := by
  constructor
  · intro i hi hcase
    rw [getCell_pcv data i hi, if_neg]
    rintro ⟨h1, hcur, hprev⟩
    rcases hcase with h0 | hna | hna
    · omega
    · exact hcur hna
    · exact hprev hna
  · intro i h1 hi c p hcur hprev hc hp hpz
    rw [getCell_pcv data i hi, if_pos ⟨h1, hcur, hprev⟩, hc, hp,
      JSNum.sub_fin, JSNum.div_fin _ _ hpz, JSNum.mul_fin]

/-- Witness for C6: volumes [100, "-", 150] give the sentinel at all three
indices; volumes [1,000 and 1,500] (with thousands separators) give a
numeric change of 50 already at index 1. -/
theorem C6_witness :
    getCell (percentagesChangeInVolume
        [[("Volume", JSVal.str "100")], [("Volume", JSVal.str "-")],
         [("Volume", JSVal.str "150")]]) 0 "Daily Change in Volume" = naVal ∧
    getCell (percentagesChangeInVolume
        [[("Volume", JSVal.str "100")], [("Volume", JSVal.str "-")],
         [("Volume", JSVal.str "150")]]) 1 "Daily Change in Volume" = naVal ∧
    getCell (percentagesChangeInVolume
        [[("Volume", JSVal.str "100")], [("Volume", JSVal.str "-")],
         [("Volume", JSVal.str "150")]]) 2 "Daily Change in Volume" = naVal ∧
    getCell (percentagesChangeInVolume
        [[("Volume", JSVal.str "1,000")], [("Volume", JSVal.str "1,500")]])
      1 "Daily Change in Volume" = JSVal.num (JSNum.fin 50) := by
  refine ⟨?_, ?_, ?_, ?_⟩
  · exact (C6_volume_change_edges_and_formula _).1 0 (by decide) (by decide)
  · exact (C6_volume_change_edges_and_formula _).1 1 (by decide) (by decide)
  · exact (C6_volume_change_edges_and_formula _).1 2 (by decide) (by decide)
  · have h50 : ((1500 : ℚ) - 1000) / 1000 * 100 = 50 := by norm_num
    exact ((C6_volume_change_edges_and_formula _).2 1 (by decide) (by decide)
      1500 1000 (by decide) (by decide) (by decide) (by decide)
      (by decide)).trans (by rw [h50])

/-- How a finite value prints under toFixed(2), phrased through its scaled
floor, so that concrete instances can be computed by norm_num. -/
theorem numberToCurrencyValue_eq (q : ℚ) (n : ℤ) (hq : ¬ q < 0)
    (h : ⌊q * 100 + 1 / 2⌋ = n) :
    numberToCurrencyValue (.fin q) =
      toString (n / 100) ++ "." ++ (if (n % 100).toNat < 10 then "0" else "")
        ++ toString (n % 100).toNat := by
  simp only [numberToCurrencyValue, toFixed2]
  rw [abs_of_nonneg (not_lt.mp hq), h, if_neg hq]
  simp


/-- C3 counterexample: volumes [0, 150] — the previous value parses to zero,
and the transform emits the number Infinity, not the N/A sentinel. -/
theorem C3_counterexample :
    getCell (percentagesChangeInVolume
        [[("Volume", JSVal.str "0")], [("Volume", JSVal.str "150")]])
      1 "Daily Change in Volume" = JSVal.num JSNum.inf ∧
    JSVal.num JSNum.inf ≠ naVal := by
  constructor
  · have h1 : parseCell (getKey [("Volume", JSVal.str "0")] "Volume")
        = JSNum.fin 0 := by decide
    have h2 : parseCell (getKey [("Volume", JSVal.str "150")] "Volume")
        = JSNum.fin 150 := by decide
    rw [getCell_pcv _ 1 (by decide), if_pos ⟨by decide, by decide, by decide⟩]
    norm_num [h1, h2, JSNum.sub_fin, JSNum.fin_div_zero, JSNum.inf_mul_hundred]
  · decide

/-- C3 amended: when the previous row's value parses to zero (and both
operands are non-sentinel at an in-range index), both percentage-change
transforms emit a number: Infinity when the current value is positive,
-Infinity when negative, NaN when it is also zero — never the sentinel. -/
theorem C3_amended_zero_previous (data : List Record) :
    (∀ i, 1 ≤ i → i < data.length → ∀ c : ℚ,
      getKey (data.getD i []) "Volume" ≠ naVal →
      getKey (data.getD (i - 1) []) "Volume" ≠ naVal →
      parseCell (getKey (data.getD i []) "Volume") = .fin c →
      parseCell (getKey (data.getD (i - 1) []) "Volume") = .fin 0 →
      getCell (percentagesChangeInVolume data) i "Daily Change in Volume"
        = .num (if 0 < c then JSNum.inf else if c < 0 then JSNum.negInf
            else JSNum.nan)) ∧
    (∀ i, 2 ≤ i → i < data.length → ∀ key, key ∈ priceKeys → ∀ c : ℚ,
      getKey (data.getD i []) key ≠ naVal →
      getKey (data.getD (i - 1) []) key ≠ naVal →
      parseCell (getKey (data.getD i []) key) = .fin c →
      parseCell (getKey (data.getD (i - 1) []) key) = .fin 0 →
      getCell (percentagesChangeInPrices data) i (priceChangeCellName key)
        = .num (if 0 < c then JSNum.inf else if c < 0 then JSNum.negInf
            else JSNum.nan)) := by
  constructor
  · intro i h1 hi c hcur hprev hc hp
    rw [getCell_pcv data i hi, if_pos ⟨h1, hcur, hprev⟩, hc, hp, JSNum.sub_fin,
      sub_zero, JSNum.fin_div_zero]
    rcases lt_trichotomy c 0 with hlt | heq | hgt
    · simp [hlt.ne, lt_asymm hlt, hlt, JSNum.negInf_mul_hundred]
    · subst heq
      simp [JSNum.nan_mul, lt_irrefl]
    · simp [hgt.ne', hgt, lt_asymm hgt, JSNum.inf_mul_hundred]
  · intro i h2 hi key hkey c hcur hprev hc hp
    rw [getCell_pcp data i hi key hkey, if_pos ⟨h2, hcur, hprev⟩, hc, hp,
      JSNum.sub_fin, sub_zero, JSNum.fin_div_zero]
    rcases lt_trichotomy c 0 with hlt | heq | hgt
    · simp [hlt.ne, lt_asymm hlt, hlt, JSNum.negInf_mul_hundred]
    · subst heq
      simp [JSNum.nan_mul, lt_irrefl]
    · simp [hgt.ne', hgt, lt_asymm hgt, JSNum.inf_mul_hundred]

/-- Witness for the amended C3: a zero previous volume gives Infinity, and a
zero previous Close price gives Infinity. -/
theorem C3_witness :
    getCell (percentagesChangeInVolume
        [[("Volume", JSVal.str "0")], [("Volume", JSVal.str "100")]])
      1 "Daily Change in Volume" = JSVal.num JSNum.inf ∧
    getCell (percentagesChangeInPrices
        [[("Open", JSVal.str "5"), ("High", JSVal.str "5"),
          ("Low", JSVal.str "5"), ("Close", JSVal.str "5")],
         [("Open", JSVal.str "0"), ("High", JSVal.str "0"),
          ("Low", JSVal.str "0"), ("Close", JSVal.str "0")],
         [("Open", JSVal.str "100"), ("High", JSVal.str "100"),
          ("Low", JSVal.str "100"), ("Close", JSVal.str "100")]])
      2 (priceChangeCellName "Close") = JSVal.num JSNum.inf := by
  constructor
  · exact ((C3_amended_zero_previous _).1 1 (by decide) (by decide) 100
      (by decide) (by decide) (by decide) (by decide)).trans (by norm_num)
  · exact ((C3_amended_zero_previous _).2 2 (by decide) (by decide) "Close"
      (by decide) 100 (by decide) (by decide) (by decide) (by decide)).trans
      (by norm_num)

/-- C2 counterexample: a 2-day moving-average window containing the sentinel
produces the string "NaN", not the sentinel. -/
theorem C2_counterexample :
    getCell (movingAverage 2
        [[("Close", JSVal.str "-")], [("Close", JSVal.str "10")]])
      1 (movingAverageCellName "Close" 2) = JSVal.str "NaN" ∧
    JSVal.str "NaN" ≠ naVal := by decide

/-- C2 amended: both percentage-change transforms propagate the sentinel
(either operand sentinel gives the sentinel), but a moving-average window
containing a sentinel yields the string "NaN" (Number of the sentinel is NaN
and it propagates through the sum, the division and toFixed), not the
sentinel. -/
theorem C2_amended_sentinel_propagation (data : List Record) :
    (∀ i, i < data.length →
      (getKey (data.getD i []) "Volume" = naVal
        ∨ getKey (data.getD (i - 1) []) "Volume" = naVal) →
      getCell (percentagesChangeInVolume data) i "Daily Change in Volume"
        = naVal) ∧
    (∀ i, i < data.length → ∀ key, key ∈ priceKeys →
      (getKey (data.getD i []) key = naVal
        ∨ getKey (data.getD (i - 1) []) key = naVal) →
      getCell (percentagesChangeInPrices data) i (priceChangeCellName key)
        = naVal) ∧
    (∀ W i cell, cell ∈ VALUE_CELLS → i < data.length → ¬ i < W - 1 →
      (∃ r ∈ (data.drop (i + 1 - W)).take W, getKey r cell = naVal) →
      getCell (movingAverage W data) i (movingAverageCellName cell W)
        = JSVal.str "NaN") := by
  refine ⟨?_, ?_, ?_⟩
  · intro i hi hcase
    rw [getCell_pcv data i hi, if_neg]
    rintro ⟨-, hcur, hprev⟩
    rcases hcase with hna | hna
    · exact hcur hna
    · exact hprev hna
  · intro i hi key hkey hcase
    rw [getCell_pcp data i hi key hkey, if_neg]
    rintro ⟨-, hcur, hprev⟩
    rcases hcase with hna | hna
    · exact hcur hna
    · exact hprev hna
  · rintro W i cell hcell hi hiW ⟨r, hr, hrna⟩
    rw [getCell_movingAverage W data i hi cell hcell, if_neg hiW]
    rw [foldl_add_nan_of_mem (fun r => jsToNumber (getKey r cell)) _ r hr
      (show jsToNumber (getKey r cell) = JSNum.nan by rw [hrna]; decide)]
    rw [JSNum.nan_div]
    decide

/-- Witness for the amended C2: sentinel operands give the sentinel for both
percentage changes; a sentinel inside a 2-day window gives "NaN". -/
theorem C2_witness :
    getCell (percentagesChangeInVolume
        [[("Volume", JSVal.str "100")], [("Volume", JSVal.str "-")]])
      1 "Daily Change in Volume" = naVal ∧
    getCell (percentagesChangeInPrices
        [[("Open", JSVal.str "10"), ("High", JSVal.str "10"),
          ("Low", JSVal.str "10"), ("Close", JSVal.str "10")],
         [("Open", JSVal.str "-"), ("High", JSVal.str "-"),
          ("Low", JSVal.str "-"), ("Close", JSVal.str "-")],
         [("Open", JSVal.str "20"), ("High", JSVal.str "20"),
          ("Low", JSVal.str "20"), ("Close", JSVal.str "20")]])
      2 (priceChangeCellName "Close") = naVal ∧
    getCell (movingAverage 2
        [[("Close", JSVal.str "5")], [("Close", JSVal.str "-")]])
      1 (movingAverageCellName "Close" 2) = JSVal.str "NaN" := by
  refine ⟨?_, ?_, ?_⟩
  · exact (C2_amended_sentinel_propagation _).1 1 (by decide) (by decide)
  · exact (C2_amended_sentinel_propagation _).2.1 2 (by decide) "Close"
      (by decide) (by decide)
  · exact (C2_amended_sentinel_propagation _).2.2 2 1 "Close" (by decide)
      (by decide) (by decide) (by decide)

/-- The token loop errors exactly when some token coerces to NaN, and
otherwise returns the Number coercions of all tokens in order. -/
theorem mapOrExit_check (l : List String) :
    ((∃ a ∈ l, jsNumberOfString a = JSNum.nan) → mapOrExit l = Except.error ()) ∧
    ((∀ a ∈ l, jsNumberOfString a ≠ JSNum.nan) →
      mapOrExit l = Except.ok (l.map jsNumberOfString)) := by
  induction l with
  | nil =>
      refine ⟨?_, ?_⟩
      · rintro ⟨a, ha, -⟩
        cases ha
      · intro
        rfl
  | cons hd tl ih =>
      refine ⟨?_, ?_⟩
      · rintro ⟨a, ha, hna⟩
        rcases List.mem_cons.mp ha with rfl | hm
        · simp [mapOrExit, hna]
        · by_cases hhd : jsNumberOfString hd = JSNum.nan
          · simp [mapOrExit, hhd]
          · simp [mapOrExit, hhd, ih.1 ⟨a, hm, hna⟩]
      · intro hall
        have hhd : jsNumberOfString hd ≠ JSNum.nan :=
          hall hd (List.mem_cons_self _ _)
        simp [mapOrExit, hhd, ih.2 (fun a ha => hall a (List.mem_cons_of_mem _ ha))]

/-- C7 amended: formatInputtedMovingAverages rejects (exits) exactly when some
comma-separated token's Number coercion is NaN; every numeric token — zero,
negative and fractional included — is accepted and becomes a window length. -/
theorem C7_amended_isnan_only (s : String) (hs : s ≠ "") :
    (formatInputtedMovingAverages (some s) = Except.error ()
      ↔ ∃ a ∈ (jsSplitComma s).map jsTrim, jsNumberOfString a = JSNum.nan) ∧
    ((∀ a ∈ (jsSplitComma s).map jsTrim, jsNumberOfString a ≠ JSNum.nan) →
      formatInputtedMovingAverages (some s)
        = Except.ok (some (((jsSplitComma s).map jsTrim).map jsNumberOfString))) := by
  constructor
  · constructor
    · intro he
      by_contra hne
      push_neg at hne
      have hok := (mapOrExit_check _).2 hne
      simp only [formatInputtedMovingAverages] at he
      rw [if_neg hs, hok] at he
      cases he
    · intro hex
      have herr := (mapOrExit_check _).1 hex
      simp only [formatInputtedMovingAverages]
      rw [if_neg hs, herr]
  · intro hall
    have hok := (mapOrExit_check _).2 hall
    simp only [formatInputtedMovingAverages]
    rw [if_neg hs, hok]

/-- C7 counterexample: the token "0" is not a positive integer but is
accepted — the run proceeds with window length 0 instead of being rejected. -/
theorem C7_counterexample :
    formatInputtedMovingAverages (some "0") = Except.ok (some [JSNum.fin 0]) ∧
    formatInputtedMovingAverages (some "0") ≠ Except.error () := by
  constructor
  · decide
  · decide

/-- Witness for the amended C7: "0,-3,2.5" (zero, negative, fractional) is
accepted whole; "abc" is rejected. -/
theorem C7_witness :
    formatInputtedMovingAverages (some "0,-3,2.5")
      = Except.ok (some (((jsSplitComma "0,-3,2.5").map jsTrim).map
          jsNumberOfString)) ∧
    formatInputtedMovingAverages (some "abc") = Except.error () := by
  constructor
  · exact (C7_amended_isnan_only "0,-3,2.5" (by decide)).2 (by decide)
  · exact (C7_amended_isnan_only "abc" (by decide)).1.mpr
      ⟨"abc", by decide, by decide⟩

/-- C5: for window length W, row indices below W - 1 carry the sentinel for
each price field's moving-average column, and every other row carries the
window sum divided by W, rendered with 2-decimal currency rounding. -/
theorem C5_moving_average_window (W : ℕ) (hW : 1 ≤ W) (data : List Record)
    (cell : String) (hcell : cell ∈ VALUE_CELLS) :
    (∀ i, i < data.length → i < W - 1 →
      getCell (movingAverage W data) i (movingAverageCellName cell W) = naVal) ∧
    (∀ i, i < data.length → W - 1 ≤ i → ∀ qs : List ℚ,
      ((data.drop (i + 1 - W)).take W).map (fun r => jsToNumber (getKey r cell))
        = qs.map JSNum.fin →
      getCell (movingAverage W data) i (movingAverageCellName cell W)
        = JSVal.str (numberToCurrencyValue (.fin (qs.sum / W)))) := by
  constructor
  · intro i hi hiW
    rw [getCell_movingAverage W data i hi cell hcell, if_pos hiW]
  · intro i hi hiW qs hqs
    rw [getCell_movingAverage W data i hi cell hcell, if_neg (not_lt.mpr hiW)]
    rw [foldl_add_fins (fun r => jsToNumber (getKey r cell)) _ qs hqs 0]
    rw [JSNum.div_fin _ _ (Nat.cast_ne_zero.mpr (by omega)), zero_add]

/-- Witness for C5 on closing prices [10,20,30,40,50] with W = 5: indices 0
and 3 carry the sentinel, index 4 carries "30.00". -/
theorem C5_witness :
    getCell (movingAverage 5
        [[("Close", JSVal.str "10")], [("Close", JSVal.str "20")],
         [("Close", JSVal.str "30")], [("Close", JSVal.str "40")],
         [("Close", JSVal.str "50")]]) 0 (movingAverageCellName "Close" 5)
      = naVal ∧
    getCell (movingAverage 5
        [[("Close", JSVal.str "10")], [("Close", JSVal.str "20")],
         [("Close", JSVal.str "30")], [("Close", JSVal.str "40")],
         [("Close", JSVal.str "50")]]) 3 (movingAverageCellName "Close" 5)
      = naVal ∧
    getCell (movingAverage 5
        [[("Close", JSVal.str "10")], [("Close", JSVal.str "20")],
         [("Close", JSVal.str "30")], [("Close", JSVal.str "40")],
         [("Close", JSVal.str "50")]]) 4 (movingAverageCellName "Close" 5)
      = JSVal.str "30.00" := by
  refine ⟨?_, ?_, ?_⟩
  · exact (C5_moving_average_window 5 (by decide) _ "Close" (by decide)).1 0
      (by decide) (by decide)
  · exact (C5_moving_average_window 5 (by decide) _ "Close" (by decide)).1 3
      (by decide) (by decide)
  · refine ((C5_moving_average_window 5 (by decide) _ "Close" (by decide)).2 4
      (by decide) (by decide) [10, 20, 30, 40, 50] (by decide)).trans ?_
    have hq : (([10, 20, 30, 40, 50] : List ℚ).sum / ((5 : ℕ) : ℚ)) = 30 := by
      norm_num
    rw [hq, numberToCurrencyValue_eq 30 3000 (by norm_num) (by norm_num)]
    decide

/-- C8 counterexample: a row longer than the header and a row shorter than
the header are both turned into records silently — the extra cells land
under the key "undefined" (last one wins), missing columns are simply
absent; no structural error occurs. -/
theorem C8_counterexample :
    rowsToObjects [["a", "b", "c"]] ["Date"]
      = [[("Date", JSVal.str "a"), ("undefined", JSVal.str "c")]] ∧
    rowsToObjects [["x"]] ["Date", "Volume"] = [[("Date", JSVal.str "x")]] := by
  decide

/-- C8 amended: rowsToObjects performs no validation at all — it is total and
produces exactly one record per raw row whatever the row lengths are, so a
cell-count mismatch is not detected and the pipeline continues. -/
theorem C8_amended_no_validation (rows : List (List String))
    (headers : List String) :
    (rowsToObjects rows headers).length = rows.length := by
  simp [rowsToObjects]

/-- C10 counterexample: an input column that happens to carry a derived
column's name is rewritten by the transform (row 0 held "x" there before the
volume stage, the sentinel after). -/
theorem C10_counterexample :
    getCell (percentagesChangeInVolume
        [[("Daily Change in Volume", JSVal.str "x"),
          ("Volume", JSVal.str "100")]]) 0 "Daily Change in Volume" = naVal ∧
    naVal ≠ JSVal.str "x" := by
  decide

/-- C10 amended: each transform stage keeps the record count (and, being an
index-preserving map, the order), and leaves every column unchanged except
the stage's own derived columns; a pre-existing column is rewritten exactly
when its name collides with a derived column name. -/
theorem C10_amended_frame (data : List Record) :
    ((percentagesChangeInVolume data).length = data.length ∧
      ∀ i, i < data.length → ∀ k, k ≠ "Daily Change in Volume" →
        getCell (percentagesChangeInVolume data) i k = getCell data i k) ∧
    ((percentagesChangeInPrices data).length = data.length ∧
      ∀ i, i < data.length → ∀ k,
        (∀ key ∈ priceKeys, k ≠ priceChangeCellName key) →
        getCell (percentagesChangeInPrices data) i k = getCell data i k) ∧
    (∀ W, (movingAverage W data).length = data.length ∧
      ∀ i, i < data.length → ∀ k,
        (∀ cell ∈ VALUE_CELLS, k ≠ movingAverageCellName cell W) →
        getCell (movingAverage W data) i k = getCell data i k) := by
  refine ⟨⟨length_pcv data, ?_⟩, ⟨length_pcp data, ?_⟩,
    fun W => ⟨length_movingAverage W data, ?_⟩⟩
  · exact fun i hi k hk => getCell_pcv_other data i k hi hk
  · exact fun i hi k hk => getCell_pcp_other data i k hi hk
  · exact fun i hi k hk => getCell_movingAverage_other W data i k hi hk

/-- Witness for the amended C10: on a one-row input the volume stage keeps
the row count and leaves an unrelated column "Foo" untouched. -/
theorem C10_witness :
    (percentagesChangeInVolume
        [[("Volume", JSVal.str "5"), ("Foo", JSVal.str "bar")]]).length = 1 ∧
    getCell (percentagesChangeInVolume
        [[("Volume", JSVal.str "5"), ("Foo", JSVal.str "bar")]]) 0 "Foo"
      = getCell [[("Volume", JSVal.str "5"), ("Foo", JSVal.str "bar")]] 0 "Foo" := by
  constructor
  · exact ((C10_amended_frame _).1).1.trans (by decide)
  · exact ((C10_amended_frame _).1).2 0 (by decide) "Foo" (by decide)

/-- C9: the chronological sort is stable (the records carrying any fixed
parsed date keep their original relative order) and idempotent (an input
already pairwise-sorted by parsed date is returned unchanged). -/
theorem C9_sort_stable_idempotent (parseDate : JSVal → ℤ) (dateKey : String)
    (data : List Record) :
    (∀ d : ℤ,
      (sortDataByDate parseDate dateKey data).filter
          (fun r => decide (parseDate (getKey r dateKey) = d))
        = data.filter (fun r => decide (parseDate (getKey r dateKey) = d))) ∧
    (data.Pairwise (fun a b =>
        parseDate (getKey a dateKey) ≤ parseDate (getKey b dateKey)) →
      sortDataByDate parseDate dateKey data = data) := by
  constructor
  · intro d
    unfold sortDataByDate
    have htrans : ∀ a b c : Record,
        (fun a b : Record => decide (parseDate (getKey a dateKey)
          ≤ parseDate (getKey b dateKey))) a b = true →
        (fun a b : Record => decide (parseDate (getKey a dateKey)
          ≤ parseDate (getKey b dateKey))) b c = true →
        (fun a b : Record => decide (parseDate (getKey a dateKey)
          ≤ parseDate (getKey b dateKey))) a c = true := by
      intro a b c hab hbc
      simp only [decide_eq_true_eq] at *
      omega
    have htotal : ∀ a b : Record,
        ((fun a b : Record => decide (parseDate (getKey a dateKey)
          ≤ parseDate (getKey b dateKey))) a b
        || (fun a b : Record => decide (parseDate (getKey a dateKey)
          ≤ parseDate (getKey b dateKey))) b a) = true := by
      intro a b
      simp only [Bool.or_eq_true, decide_eq_true_eq]
      omega
    have hpw : (data.filter (fun r => decide (parseDate (getKey r dateKey) = d))).Pairwise
        (fun a b => decide (parseDate (getKey a dateKey)
          ≤ parseDate (getKey b dateKey)) = true) := by
      apply List.pairwise_of_forall_mem_list
      intro a ha b hb
      have had := (List.mem_filter.mp ha).2
      have hbd := (List.mem_filter.mp hb).2
      simp only [decide_eq_true_eq] at had hbd ⊢
      omega
    have hsub := List.sublist_mergeSort htrans htotal hpw
      (List.filter_sublist data)
    have hperm := (List.mergeSort_perm data (fun a b =>
        decide (parseDate (getKey a dateKey) ≤ parseDate (getKey b dateKey)))).filter
      (fun r => decide (parseDate (getKey r dateKey) = d))
    have hfsub := hsub.filter (fun r => decide (parseDate (getKey r dateKey) = d))
    rw [List.filter_filter] at hfsub
    have hff : (data.filter (fun r =>
        (decide (parseDate (getKey r dateKey) = d)
          && decide (parseDate (getKey r dateKey) = d))))
        = data.filter (fun r => decide (parseDate (getKey r dateKey) = d)) := by
      apply List.filter_congr
      intro r _
      cases hdec : decide (parseDate (getKey r dateKey) = d) <;> simp [hdec]
    rw [hff] at hfsub
    exact (hfsub.eq_of_length hperm.length_eq.symm).symm
  · intro hs
    unfold sortDataByDate
    apply List.mergeSort_of_sorted
    exact hs.imp (fun h => decide_eq_true h)

/-- Witness for C9 on four records with date strings sorted by length and a
tie at length 2: sorting returns the list unchanged, and the two tied
records keep their order in the filtered view. -/
theorem C9_witness :
    sortDataByDate timestampByLength "Date"
        [[("Date", JSVal.str "1"), ("tag", JSVal.str "a")],
         [("Date", JSVal.str "22"), ("tag", JSVal.str "b")],
         [("Date", JSVal.str "22"), ("tag", JSVal.str "c")],
         [("Date", JSVal.str "333"), ("tag", JSVal.str "d")]]
      = [[("Date", JSVal.str "1"), ("tag", JSVal.str "a")],
         [("Date", JSVal.str "22"), ("tag", JSVal.str "b")],
         [("Date", JSVal.str "22"), ("tag", JSVal.str "c")],
         [("Date", JSVal.str "333"), ("tag", JSVal.str "d")]] ∧
    (sortDataByDate timestampByLength "Date"
        [[("Date", JSVal.str "1"), ("tag", JSVal.str "a")],
         [("Date", JSVal.str "22"), ("tag", JSVal.str "b")],
         [("Date", JSVal.str "22"), ("tag", JSVal.str "c")],
         [("Date", JSVal.str "333"), ("tag", JSVal.str "d")]]).filter
        (fun r => decide (timestampByLength (getKey r "Date") = 2))
      = [[("Date", JSVal.str "1"), ("tag", JSVal.str "a")],
         [("Date", JSVal.str "22"), ("tag", JSVal.str "b")],
         [("Date", JSVal.str "22"), ("tag", JSVal.str "c")],
         [("Date", JSVal.str "333"), ("tag", JSVal.str "d")]].filter
        (fun r => decide (timestampByLength (getKey r "Date") = 2)) := by
  constructor
  · exact (C9_sort_stable_idempotent timestampByLength "Date" _).2 (by decide)
  · exact (C9_sort_stable_idempotent timestampByLength "Date" _).1 2

/- ### Length and frame bookkeeping for the composed pipeline -/

theorem length_sortDataByDate (parseDate : JSVal → ℤ) (dateKey : String)
    (data : List Record) :
    (sortDataByDate parseDate dateKey data).length = data.length := by
  simp [sortDataByDate]

theorem length_fold_ma : ∀ (ws : List ℕ) (d : List Record),
    ((ws.map movingAverage).foldl (fun d f => f d) d).length = d.length := by
  intro ws
  induction ws with
  | nil => intro d; rfl
  | cons W rest ih =>
      intro d
      rw [List.map_cons, List.foldl_cons]
      rw [ih (movingAverage W d)]
      exact length_movingAverage W d

theorem dcv_ne_pcName : ∀ key ∈ priceKeys,
    ("Daily Change in Volume" : String) ≠ priceChangeCellName key := by
  decide

theorem pcv_shape (data : List Record) (i : ℕ) (hi : i < data.length) :
    NumOrSentinel (getCell (percentagesChangeInVolume data) i
      "Daily Change in Volume") := by
  rw [getCell_pcv data i hi]
  split
  · exact Or.inr ⟨_, rfl⟩
  · exact Or.inl rfl

theorem pcp_shape (data : List Record) (i : ℕ) (key : String)
    (hkey : key ∈ priceKeys) (hi : i < data.length) :
    NumOrSentinel (getCell (percentagesChangeInPrices data) i
      (priceChangeCellName key)) := by
  rw [getCell_pcp data i hi key hkey]
  split
  · exact Or.inr ⟨_, rfl⟩
  · exact Or.inl rfl

/-- One moving-average stage either leaves a cell unchanged or writes the
sentinel or a toFixed(2) string into it. -/
theorem ma_stage_shape (W : ℕ) (d : List Record) (i : ℕ) (k : String)
    (hi : i < d.length) :
    getCell (movingAverage W d) i k = getCell d i k ∨
    getCell (movingAverage W d) i k = naVal ∨
    ∃ n, getCell (movingAverage W d) i k
      = JSVal.str (numberToCurrencyValue n) := by
  by_cases hk : ∃ cell ∈ VALUE_CELLS, k = movingAverageCellName cell W
  · obtain ⟨cell, hcell, rfl⟩ := hk
    rw [getCell_movingAverage W d i hi cell hcell]
    split
    · exact Or.inr (Or.inl rfl)
    · exact Or.inr (Or.inr ⟨_, rfl⟩)
  · push_neg at hk
    exact Or.inl (getCell_movingAverage_other W d i k hi hk)

theorem fold_ma_frame : ∀ (ws : List ℕ) (d : List Record) (i : ℕ) (k : String),
    i < d.length →
    (∀ W cell, cell ∈ VALUE_CELLS → k ≠ movingAverageCellName cell W) →
    getCell ((ws.map movingAverage).foldl (fun d f => f d) d) i k
      = getCell d i k := by
  intro ws
  induction ws with
  | nil => intro d i k _ _; rfl
  | cons W rest ih =>
      intro d i k hi hk
      rw [List.map_cons, List.foldl_cons]
      rw [ih (movingAverage W d) i k (by rw [length_movingAverage]; exact hi) hk]
      exact getCell_movingAverage_other W d i k hi (fun cell hcell => hk W cell hcell)

theorem fold_ma_shape : ∀ (ws : List ℕ) (d : List Record) (i : ℕ) (k : String),
    i < d.length →
    CurrencyStringOrSentinel (getCell d i k) →
    CurrencyStringOrSentinel
      (getCell ((ws.map movingAverage).foldl (fun d f => f d) d) i k) := by
  intro ws
  induction ws with
  | nil => intro d i k _ h; exact h
  | cons W rest ih =>
      intro d i k hi h
      rw [List.map_cons, List.foldl_cons]
      apply ih (movingAverage W d) i k (by rw [length_movingAverage]; exact hi)
      rcases ma_stage_shape W d i k hi with hsame | hna | ⟨n, hfx⟩
      · rw [hsame]; exact h
      · exact Or.inl hna
      · exact Or.inr ⟨n, hfx⟩

theorem fold_ma_sets (ws : List ℕ) (d : List Record) (i : ℕ) (W : ℕ)
    (hW : W ∈ ws) (cell : String) (hcell : cell ∈ VALUE_CELLS)
    (hi : i < d.length) :
    CurrencyStringOrSentinel
      (getCell ((ws.map movingAverage).foldl (fun d f => f d) d) i
        (movingAverageCellName cell W)) := by
  obtain ⟨l1, l2, rfl⟩ := List.append_of_mem hW
  rw [List.map_append, List.foldl_append, List.map_cons, List.foldl_cons]
  have hi1 : i < ((l1.map movingAverage).foldl (fun d f => f d) d).length := by
    rw [length_fold_ma]; exact hi
  apply fold_ma_shape l2 _ i _ (by rw [length_movingAverage]; exact hi1)
  rw [getCell_movingAverage W _ i hi1 cell hcell]
  split
  · exact Or.inl rfl
  · exact Or.inr ⟨_, rfl⟩

/-- C4 amended: on inputs whose consumed cells — the Volume column and the
four price fields of every record — are all strings (exactly the inputs the
program runs to completion instead of throwing a TypeError on `.replace` of
a non-string), the pipeline is total: every derived cell of every row is
present; the percentage-change columns hold either the sentinel or a JS
number (stored as a number, not a string, and possibly non-finite), and the
moving-average columns hold either the sentinel or the toFixed(2) string of
a JS number (which is "NaN"/"Infinity" rather than a numeral when the window
was not fully numeric). -/
theorem C4_amended_totality (parseDate : JSVal → ℤ) (ws : List ℕ)
    (data : List Record)
    (_hstr : ∀ r ∈ data, ∀ k ∈ "Volume" :: priceKeys,
      (getKey r k).isStr = true) :
    (pipelineRun parseDate ws data).length = data.length ∧
    ∀ i, i < data.length →
      NumOrSentinel (getCell (pipelineRun parseDate ws data) i
        "Daily Change in Volume") ∧
      (∀ key ∈ priceKeys,
        NumOrSentinel (getCell (pipelineRun parseDate ws data) i
          (priceChangeCellName key))) ∧
      (∀ W ∈ ws, ∀ cell ∈ VALUE_CELLS,
        CurrencyStringOrSentinel (getCell (pipelineRun parseDate ws data) i
          (movingAverageCellName cell W))) := by
  unfold pipelineRun prepareData
  have hl0 : (sortDataByDate parseDate DATE_CELL data).length = data.length :=
    length_sortDataByDate parseDate DATE_CELL data
  have hl1 : (percentagesChangeInVolume
      (sortDataByDate parseDate DATE_CELL data)).length = data.length := by
    rw [length_pcv]; exact hl0
  have hl2 : (percentagesChangeInPrices (percentagesChangeInVolume
      (sortDataByDate parseDate DATE_CELL data))).length = data.length := by
    rw [length_pcp]; exact hl1
  constructor
  · rw [length_fold_ma]; exact hl2
  · intro i hi
    have hi2 : i < (percentagesChangeInPrices (percentagesChangeInVolume
        (sortDataByDate parseDate DATE_CELL data))).length := by omega
    have hi1 : i < (percentagesChangeInVolume
        (sortDataByDate parseDate DATE_CELL data)).length := by omega
    have hi0 : i < (sortDataByDate parseDate DATE_CELL data).length := by omega
    refine ⟨?_, ?_, ?_⟩
    · rw [fold_ma_frame ws _ i _ hi2 (fun W cell hcell => dcv_ne_maName cell W)]
      rw [getCell_pcp_other _ i _ hi1 dcv_ne_pcName]
      exact pcv_shape _ i hi0
    · intro key hkey
      rw [fold_ma_frame ws _ i _ hi2
        (fun W cell hcell => priceChangeCellName_ne_maName key cell W)]
      exact pcp_shape _ i key hkey hi1
    · intro W hW cell hcell
      exact fold_ma_sets ws _ i W hW cell hcell hi2

/-- C4 counterexample, on two full-column inputs a real run completes on.
With windows [5] and closing prices [10, 20, 30], row 2's Close
percentage-change cell holds the JS number 50 — a number, not a
number-string and not the sentinel.  With windows [2] and a sentinel first
day, row 1's 2-day Close moving average holds the string "NaN" — a
parse-error value, not the sentinel. -/
theorem C4_counterexample :
    getCell (pipelineRun constTimestamp [5] sampleRows3)
      2 (priceChangeCellName "Close") = JSVal.num (JSNum.fin 50) ∧
    (JSVal.num (JSNum.fin 50)).isStr = false ∧
    JSVal.num (JSNum.fin 50) ≠ naVal ∧
    getCell (pipelineRun constTimestamp [2] sampleRowsNaN)
      1 (movingAverageCellName "Close" 2) = JSVal.str "NaN" ∧
    JSVal.str "NaN" ≠ naVal := by
  have hsort3 : sortDataByDate constTimestamp DATE_CELL sampleRows3
      = sampleRows3 := by
    unfold sortDataByDate
    exact List.mergeSort_of_sorted (by decide)
  have hsort2 : sortDataByDate constTimestamp DATE_CELL sampleRowsNaN
      = sampleRowsNaN := by
    unfold sortDataByDate
    exact List.mergeSort_of_sorted (by decide)
  refine ⟨?_, by decide, by decide, ?_, by decide⟩
  · unfold pipelineRun prepareData
    rw [hsort3]
    rw [fold_ma_frame [5]
      (percentagesChangeInPrices (percentagesChangeInVolume sampleRows3)) 2
      (priceChangeCellName "Close")
      (by rw [length_pcp, length_pcv]; decide)
      (fun W cell hcell => priceChangeCellName_ne_maName "Close" cell W)]
    rw [getCell_pcp (percentagesChangeInVolume sampleRows3) 2
      (by rw [length_pcv]; decide) "Close" (by decide),
      if_pos ⟨by decide, by decide, by decide⟩]
    have hc : parseCell (getKey
        ((percentagesChangeInVolume sampleRows3).getD 2 []) "Close")
        = JSNum.fin 30 := by decide
    have hp : parseCell (getKey
        ((percentagesChangeInVolume sampleRows3).getD (2 - 1) []) "Close")
        = JSNum.fin 20 := by decide
    rw [hc, hp, JSNum.sub_fin, JSNum.div_fin _ _ (by norm_num), JSNum.mul_fin]
    have h50 : ((30 : ℚ) - 20) / 20 * 100 = 50 := by norm_num
    rw [h50]
  · unfold pipelineRun prepareData
    rw [hsort2]
    decide

/-- Witness for the amended C4 on a one-row full-column run with window
list [5]. -/
theorem C4_witness :
    NumOrSentinel (getCell (pipelineRun constTimestamp [5] sampleRowTotal)
      0 "Daily Change in Volume") ∧
    NumOrSentinel (getCell (pipelineRun constTimestamp [5] sampleRowTotal)
      0 (priceChangeCellName "Close")) ∧
    CurrencyStringOrSentinel (getCell (pipelineRun constTimestamp [5]
      sampleRowTotal) 0 (movingAverageCellName "Close" 5)) := by
  refine ⟨?_, ?_, ?_⟩
  · exact ((C4_amended_totality constTimestamp [5] sampleRowTotal
      (by decide)).2 0 (by decide)).1
  · exact ((C4_amended_totality constTimestamp [5] sampleRowTotal
      (by decide)).2 0 (by decide)).2.1 "Close" (by decide)
  · exact ((C4_amended_totality constTimestamp [5] sampleRowTotal
      (by decide)).2 0 (by decide)).2.2 5 (by decide) "Close" (by decide)
